import Mathlib

/-!
Verification development for the MOAC xchain `p2p/discover` UDP transport
(file `udp.go`): wire codec, packet handlers, peer classification and the
pending-reply event loop, shallowly embedded in Lean.

Bytes are modelled as `Nat`, byte strings as `List Nat`; machine-integer
wraparound is made explicit with `% 2^64` where the Go code converts
between `uint64` and `int64`.  External collaborators absent from the
source (keccak-256, recoverable ECDSA, the RLP body codec, the routing
table's classification map, the node database and the key/value overlay)
are modelled from the specification; each such definition is marked
`Modelled from the spec:` in its doc comment.
-/

abbrev Byte := Nat

abbrev NodeID := Nat

/-- Packet frame sizes from the source: `macSize = 256/8`. -/
def macSize : Nat := 32

/-- Packet frame sizes from the source: `sigSize = 520/8`. -/
def sigSize : Nat := 65

/-- Packet frame sizes from the source: `headSize = macSize + sigSize`. -/
def headSize : Nat := macSize + sigSize

/-- RPC packet type tag for ping (`PINGPACKET = iota + 1`). -/
def PINGPACKET : Nat := 1

/-- RPC packet type tag for pong. -/
def PONGPACKET : Nat := 2

/-- RPC packet type tag for findnode. -/
def FINDNODEPACKET : Nat := 3

/-- RPC packet type tag for neighbors. -/
def NEIGHBORSPACKET : Nat := 4

/-- RPC packet type tag for store. -/
def STOREPACKET : Nat := 5

/-- RPC packet type tag for store reply. -/
def STOREREPLYPACKET : Nat := 6

/-- RPC packet type tag for findvalue. -/
def FINDVALUEPACKET : Nat := 7

/-- RPC packet type tag for findvalue reply. -/
def FINDVALUEREPLYPACKET : Nat := 8

/-- The `rpcEndpoint` struct: IP, UDP port, TCP port (IP abstracted to a Nat). -/
structure RpcEndpoint where
  ip : Nat
  udp : Nat
  tcp : Nat
deriving DecidableEq

/-- The exported (RLP-visible) fields of the `rpcNode` struct: IP, UDP, TCP, ID. -/
structure RpcNode where
  ip : Nat
  udp : Nat
  tcp : Nat
  id : NodeID
deriving DecidableEq

/-- The `ping` request struct. -/
structure PingMsg where
  version : Nat
  fromEp : RpcEndpoint
  toEp : RpcEndpoint
  expiration : Nat
  rest : List (List Byte)
deriving DecidableEq

/-- The `pong` reply struct. -/
structure PongMsg where
  toEp : RpcEndpoint
  replyTok : List Byte
  expiration : Nat
  rest : List (List Byte)
deriving DecidableEq

/-- The `findnode` request struct. -/
structure FindnodeMsg where
  target : NodeID
  expiration : Nat
  rest : List (List Byte)
deriving DecidableEq

/-- The `neighbors` reply struct. -/
structure NeighborsMsg where
  nodes : List RpcNode
  expiration : Nat
  rest : List (List Byte)
deriving DecidableEq

/-- The `store` request struct. -/
structure StoreMsg where
  key : NodeID
  fromEp : RpcEndpoint
  expiration : Nat
  value : List Byte
deriving DecidableEq

/-- The `storeReply` struct. -/
structure StoreReplyMsg where
  expiration : Nat
  result : Bool
deriving DecidableEq

/-- The `findvalue` request struct. -/
structure FindvalueMsg where
  key : NodeID
  expiration : Nat
deriving DecidableEq

/-- The `findvalueReply` struct. -/
structure FindvalueReplyMsg where
  key : List Byte
  value : List Byte
  expiration : Nat
deriving DecidableEq

/-- Closed sum of the eight typed messages dispatched by `decodePacket`. -/
inductive Message where
  | ping : PingMsg → Message
  | pong : PongMsg → Message
  | findnode : FindnodeMsg → Message
  | neighbors : NeighborsMsg → Message
  | store : StoreMsg → Message
  | storeReply : StoreReplyMsg → Message
  | findvalue : FindvalueMsg → Message
  | findvalueReply : FindvalueReplyMsg → Message
deriving DecidableEq

/-- The packet type tag each message kind is sent with. -/
def ptypeOf : Message → Nat
  | .ping _ => PINGPACKET
  | .pong _ => PONGPACKET
  | .findnode _ => FINDNODEPACKET
  | .neighbors _ => NEIGHBORSPACKET
  | .store _ => STOREPACKET
  | .storeReply _ => STOREREPLYPACKET
  | .findvalue _ => FINDVALUEPACKET
  | .findvalueReply _ => FINDVALUEREPLYPACKET

/-! ### Canonical body codec

Modelled from the spec: the wire codec serializes a typed message "into a
canonical byte encoding" (the RLP library is an external collaborator).
The concrete self-delimiting encoding below is canonical and invertible,
which is all the spec requires of it. -/

/-- Self-delimiting unary encoding of a natural number. -/
def encNat (n : Nat) : List Byte :=
  List.replicate n 1 ++ [0]

/-- Decoder for `encNat`; returns the value and the unconsumed remainder. -/
def decNat : List Byte → Option (Nat × List Byte)
  | [] => none
  | 0 :: rest => some (0, rest)
  | 1 :: rest => (decNat rest).map fun p => (p.1 + 1, p.2)
  | _ :: _ => none

theorem decNat_enc (n : Nat) (r : List Byte) : decNat (encNat n ++ r) = some (n, r) := by
  induction n with
  | zero => simp [encNat, decNat]
  | succ k ih =>
    simp only [encNat, List.replicate_succ, List.cons_append, decNat, List.append_assoc] at *
    simp only [List.nil_append] at ih
    simp [ih]

/-- Length-prefixed encoding of a byte string. -/
def encBytes (b : List Byte) : List Byte :=
  encNat b.length ++ b

/-- Decoder for `encBytes`. -/
def decBytes (l : List Byte) : Option (List Byte × List Byte) :=
  match decNat l with
  | none => none
  | some (n, r) => if n ≤ r.length then some (r.take n, r.drop n) else none

theorem take_len_append (l₁ l₂ : List Byte) : (l₁ ++ l₂).take l₁.length = l₁ := by
  simp

theorem drop_len_append (l₁ l₂ : List Byte) : (l₁ ++ l₂).drop l₁.length = l₂ := by
  simp

theorem decBytes_enc (b : List Byte) (r : List Byte) :
    decBytes (encBytes b ++ r) = some (b, r) := by
  simp only [encBytes, List.append_assoc, decBytes, decNat_enc]
  rw [if_pos (by simp)]
  simp

/-- Count-prefixed encoding of a list of byte strings (the `Rest` tail field). -/
def encListB (xs : List (List Byte)) : List Byte :=
  encNat xs.length ++ (xs.map encBytes).flatten

/-- Decode exactly `n` length-prefixed byte strings. -/
def decBytesN : Nat → List Byte → Option (List (List Byte) × List Byte)
  | 0, l => some ([], l)
  | n + 1, l =>
    (decBytes l).bind fun p =>
      (decBytesN n p.2).map fun q => (p.1 :: q.1, q.2)

/-- Decoder for `encListB`. -/
def decListB (l : List Byte) : Option (List (List Byte) × List Byte) :=
  (decNat l).bind fun p => decBytesN p.1 p.2

theorem decBytesN_enc (xs : List (List Byte)) (r : List Byte) :
    decBytesN xs.length ((xs.map encBytes).flatten ++ r) = some (xs, r) := by
  induction xs with
  | nil => simp [decBytesN]
  | cons x tl ih =>
    simp only [List.map_cons, List.flatten_cons, List.length_cons, decBytesN,
      List.append_assoc, decBytes_enc, Option.some_bind]
    simp [ih]

theorem decListB_enc (xs : List (List Byte)) (r : List Byte) :
    decListB (encListB xs ++ r) = some (xs, r) := by
  simp only [encListB, List.append_assoc, decListB, decNat_enc, Option.some_bind]
  exact decBytesN_enc xs r

/-- Encoding of an `rpcEndpoint`. -/
def encEndpoint (e : RpcEndpoint) : List Byte :=
  encNat e.ip ++ (encNat e.udp ++ encNat e.tcp)

/-- Decoder for `encEndpoint`. -/
def decEndpoint (l : List Byte) : Option (RpcEndpoint × List Byte) :=
  (decNat l).bind fun p =>
    (decNat p.2).bind fun q =>
      (decNat q.2).map fun s => (⟨p.1, q.1, s.1⟩, s.2)

theorem decEndpoint_enc (e : RpcEndpoint) (r : List Byte) :
    decEndpoint (encEndpoint e ++ r) = some (e, r) := by
  simp [encEndpoint, decEndpoint, List.append_assoc, decNat_enc]

/-- Encoding of a boolean field. -/
def encBool (b : Bool) : List Byte :=
  encNat (cond b 1 0)

/-- Decoder for `encBool`. -/
def decBool (l : List Byte) : Option (Bool × List Byte) :=
  match decNat l with
  | some (0, r) => some (false, r)
  | some (1, r) => some (true, r)
  | _ => none

theorem decBool_enc (b : Bool) (r : List Byte) :
    decBool (encBool b ++ r) = some (b, r) := by
  cases b <;> simp [encBool, decBool, decNat_enc]

/-- Encoding of an `rpcNode` (its four exported fields). -/
def encRpcNode (n : RpcNode) : List Byte :=
  encNat n.ip ++ (encNat n.udp ++ (encNat n.tcp ++ encNat n.id))

/-- Decoder for `encRpcNode`. -/
def decRpcNode (l : List Byte) : Option (RpcNode × List Byte) :=
  (decNat l).bind fun p =>
    (decNat p.2).bind fun q =>
      (decNat q.2).bind fun s =>
        (decNat s.2).map fun t => (⟨p.1, q.1, s.1, t.1⟩, t.2)

theorem decRpcNode_enc (n : RpcNode) (r : List Byte) :
    decRpcNode (encRpcNode n ++ r) = some (n, r) := by
  simp [encRpcNode, decRpcNode, List.append_assoc, decNat_enc]

/-- Count-prefixed encoding of a node list. -/
def encRpcNodes (xs : List RpcNode) : List Byte :=
  encNat xs.length ++ (xs.map encRpcNode).flatten

/-- Decode exactly `n` `rpcNode` records. -/
def decRpcNodesN : Nat → List Byte → Option (List RpcNode × List Byte)
  | 0, l => some ([], l)
  | n + 1, l =>
    (decRpcNode l).bind fun p =>
      (decRpcNodesN n p.2).map fun q => (p.1 :: q.1, q.2)

/-- Decoder for `encRpcNodes`. -/
def decRpcNodes (l : List Byte) : Option (List RpcNode × List Byte) :=
  (decNat l).bind fun p => decRpcNodesN p.1 p.2

theorem decRpcNodesN_enc (xs : List RpcNode) (r : List Byte) :
    decRpcNodesN xs.length ((xs.map encRpcNode).flatten ++ r) = some (xs, r) := by
  induction xs with
  | nil => simp [decRpcNodesN]
  | cons x tl ih =>
    simp only [List.map_cons, List.flatten_cons, List.length_cons, decRpcNodesN,
      List.append_assoc, decRpcNode_enc, Option.some_bind]
    simp [ih]

theorem decRpcNodes_enc (xs : List RpcNode) (r : List Byte) :
    decRpcNodes (encRpcNodes xs ++ r) = some (xs, r) := by
  simp only [encRpcNodes, List.append_assoc, decRpcNodes, decNat_enc, Option.some_bind]
  exact decRpcNodesN_enc xs r

/-- Body encoding of each typed message, field by field in struct order
(only RLP-visible, i.e. exported, fields are serialized: `storeReply.result`
is carried by the struct but `rpcNode`'s unexported fields are not present). -/
def encBody : Message → List Byte
  | .ping p => encNat p.version ++ (encEndpoint p.fromEp ++ (encEndpoint p.toEp ++
      (encNat p.expiration ++ encListB p.rest)))
  | .pong p => encEndpoint p.toEp ++ (encBytes p.replyTok ++
      (encNat p.expiration ++ encListB p.rest))
  | .findnode p => encNat p.target ++ (encNat p.expiration ++ encListB p.rest)
  | .neighbors p => encRpcNodes p.nodes ++ (encNat p.expiration ++ encListB p.rest)
  | .store p => encNat p.key ++ (encEndpoint p.fromEp ++
      (encNat p.expiration ++ encBytes p.value))
  | .storeReply p => encNat p.expiration ++ encBool p.result
  | .findvalue p => encNat p.key ++ encNat p.expiration
  | .findvalueReply p => encBytes p.key ++ (encBytes p.value ++ encNat p.expiration)

/-- Body decoder for the `ping` struct. -/
def decPing (l : List Byte) : Option Message :=
  (decNat l).bind fun a =>
    (decEndpoint a.2).bind fun b =>
      (decEndpoint b.2).bind fun c =>
        (decNat c.2).bind fun d =>
          (decListB d.2).map fun e => Message.ping ⟨a.1, b.1, c.1, d.1, e.1⟩

/-- Body decoder for the `pong` struct. -/
def decPong (l : List Byte) : Option Message :=
  (decEndpoint l).bind fun a =>
    (decBytes a.2).bind fun b =>
      (decNat b.2).bind fun c =>
        (decListB c.2).map fun d => Message.pong ⟨a.1, b.1, c.1, d.1⟩

/-- Body decoder for the `findnode` struct. -/
def decFindnode (l : List Byte) : Option Message :=
  (decNat l).bind fun a =>
    (decNat a.2).bind fun b =>
      (decListB b.2).map fun c => Message.findnode ⟨a.1, b.1, c.1⟩

/-- Body decoder for the `neighbors` struct. -/
def decNeighbors (l : List Byte) : Option Message :=
  (decRpcNodes l).bind fun a =>
    (decNat a.2).bind fun b =>
      (decListB b.2).map fun c => Message.neighbors ⟨a.1, b.1, c.1⟩

/-- Body decoder for the `store` struct. -/
def decStore (l : List Byte) : Option Message :=
  (decNat l).bind fun a =>
    (decEndpoint a.2).bind fun b =>
      (decNat b.2).bind fun c =>
        (decBytes c.2).map fun d => Message.store ⟨a.1, b.1, c.1, d.1⟩

/-- Body decoder for the `storeReply` struct. -/
def decStoreReply (l : List Byte) : Option Message :=
  (decNat l).bind fun a =>
    (decBool a.2).map fun b => Message.storeReply ⟨a.1, b.1⟩

/-- Body decoder for the `findvalue` struct. -/
def decFindvalue (l : List Byte) : Option Message :=
  (decNat l).bind fun a =>
    (decNat a.2).map fun b => Message.findvalue ⟨a.1, b.1⟩

/-- Body decoder for the `findvalueReply` struct. -/
def decFindvalueReply (l : List Byte) : Option Message :=
  (decBytes l).bind fun a =>
    (decBytes a.2).bind fun b =>
      (decNat b.2).map fun c => Message.findvalueReply ⟨a.1, b.1, c.1⟩

/-- Type-tag-directed body decoding, mirroring the `switch ptype` of
`decodePacket`. -/
def decBody (ptype : Nat) (l : List Byte) : Option Message :=
  if ptype = PINGPACKET then decPing l
  else if ptype = PONGPACKET then decPong l
  else if ptype = FINDNODEPACKET then decFindnode l
  else if ptype = NEIGHBORSPACKET then decNeighbors l
  else if ptype = STOREPACKET then decStore l
  else if ptype = STOREREPLYPACKET then decStoreReply l
  else if ptype = FINDVALUEPACKET then decFindvalue l
  else if ptype = FINDVALUEREPLYPACKET then decFindvalueReply l
  else none

theorem decNat_enc_nil (n : Nat) : decNat (encNat n) = some (n, []) := by
  simpa using decNat_enc n []

theorem decBytes_enc_nil (b : List Byte) : decBytes (encBytes b) = some (b, []) := by
  simpa using decBytes_enc b []

theorem decListB_enc_nil (xs : List (List Byte)) : decListB (encListB xs) = some (xs, []) := by
  simpa using decListB_enc xs []

theorem decBool_enc_nil (b : Bool) : decBool (encBool b) = some (b, []) := by
  simpa using decBool_enc b []

theorem decBody_encBody (m : Message) : decBody (ptypeOf m) (encBody m) = some m := by
  cases m <;>
    simp [decBody, ptypeOf, PINGPACKET, PONGPACKET, FINDNODEPACKET, NEIGHBORSPACKET,
      STOREPACKET, STOREREPLYPACKET, FINDVALUEPACKET, FINDVALUEREPLYPACKET,
      encBody, decPing, decPong, decFindnode, decNeighbors, decStore, decStoreReply,
      decFindvalue, decFindvalueReply, List.append_assoc, decNat_enc, decEndpoint_enc,
      decBytes_enc, decListB_enc, decRpcNodes_enc, decBool_enc,
      decNat_enc_nil, decBytes_enc_nil, decListB_enc_nil, decBool_enc_nil]

/-! ### Crypto model -/

/-- Modelled from the spec: keccak-256, an abstract 32-byte digest function
over byte strings.  Claims settled here depend only on it being a function
with 32-byte output, not on collision resistance. -/
def keccak256 (b : List Byte) : List Byte :=
  b.foldl (fun a c => a + c) 0 :: (b.length :: List.replicate 30 0)

theorem keccak256_length (b : List Byte) : (keccak256 b).length = 32 := by
  simp [keccak256]

/-- Modelled from the spec: the NodeID derived from the public key of a
private key (`PubkeyID(&priv.PublicKey)`); private keys are abstract `Nat`s
and the derivation is injective. -/
def pubkeyID (priv : Nat) : NodeID := priv

/-- Modelled from the spec: recoverable ECDSA signing (`crypto.Sign`); the
65-byte signature binds the signer's recovered identity and the signed
32-byte hash. -/
def cryptoSign (h : List Byte) (priv : Nat) : List Byte :=
  pubkeyID priv :: (h ++ List.replicate 32 0)

theorem cryptoSign_length (b : List Byte) (priv : Nat) :
    (cryptoSign (keccak256 b) priv).length = 65 := by
  simp [cryptoSign, keccak256]

/-- Modelled from the spec: `recoverNodeID` recovers, from a signature over
a given hash, the public-key-derived NodeID of the signer; it fails on a
signature that does not match the hash. -/
def recoverNodeID (h : List Byte) (sig : List Byte) : Option NodeID :=
  match sig with
  | [] => none
  | id :: r => if r.take 32 = h then some id else none

theorem recoverNodeID_sign (b : List Byte) (priv : Nat) :
    recoverNodeID (keccak256 b) (cryptoSign (keccak256 b) priv) = some (pubkeyID priv) := by
  simp only [cryptoSign, recoverNodeID]
  rw [if_pos]
  rw [List.take_append_of_le_length (by simp [keccak256_length])]
  simp [keccak256_length]

/-! ### Packet frame codec (`encodePacket` / `decodePacket`) -/

/-- The `encodePacket` function: body is the type tag followed by the RLP
encoding of the request; the signature is over keccak-256 of the body; the
leading 32 bytes are keccak-256 of signature plus body. -/
def encodePacket (priv : Nat) (ptype : Byte) (req : Message) : List Byte :=
  keccak256 (cryptoSign (keccak256 (ptype :: encBody req)) priv ++ (ptype :: encBody req))
    ++ (cryptoSign (keccak256 (ptype :: encBody req)) priv ++ (ptype :: encBody req))

/-- Decode failure cases of `decodePacket` (`errPacketTooSmall`, `errBadHash`,
signature recovery failure, unknown type tag, body decode failure). -/
inductive DecodeErr where
  | tooSmall
  | badHash
  | badSig
  | unknownType
  | badBody
deriving DecidableEq

/-- Result of `decodePacket`: the Go function returns `(packet, fromID, hash,
err)`; failures before signature recovery carry the zero NodeID, later
failures carry the recovered one. -/
inductive DecodeResult where
  | ok (m : Message) (fromID : NodeID) (hash : List Byte)
  | fail (e : DecodeErr) (fromID : NodeID)
deriving DecidableEq

/-- The `fromID` component of a decode result (`NodeID{}` = 0 when recovery
never happened). -/
def DecodeResult.senderID : DecodeResult → NodeID
  | .ok _ f _ => f
  | .fail _ f => f

/-- The `decodePacket` function: size guard, hash check over `buf[macSize:]`,
signature recovery over keccak-256 of `buf[headSize:]`, then type-directed
body decoding of `sigdata[1:]`. -/
def decodePacket (buf : List Byte) : DecodeResult :=
  if buf.length < headSize + 1 then .fail .tooSmall 0
  else
    let hash := buf.take macSize
    let sig := (buf.drop macSize).take sigSize
    let sigdata := buf.drop headSize
    if hash ≠ keccak256 (buf.drop macSize) then .fail .badHash 0
    else
      match recoverNodeID (keccak256 sigdata) sig with
      | none => .fail .badSig 0
      | some fromID =>
        match sigdata with
        | [] => .fail .tooSmall fromID
        | ptype :: body =>
          if ptype = 0 ∨ 8 < ptype then .fail .unknownType fromID
          else
            match decBody ptype body with
            | none => .fail .badBody fromID
            | some m => .ok m fromID hash

theorem ptypeOf_range (m : Message) : ¬(ptypeOf m = 0 ∨ 8 < ptypeOf m) := by
  cases m <;> simp [ptypeOf, PINGPACKET, PONGPACKET, FINDNODEPACKET, NEIGHBORSPACKET,
    STOREPACKET, STOREREPLYPACKET, FINDVALUEPACKET, FINDVALUEREPLYPACKET]

/-- C1: for every private key and every well-formed typed message of one of
the eight packet types, decoding the bytes produced by `encodePacket` with
that key succeeds and returns the same message together with a sender NodeID
equal to the NodeID derived from the private key's public key. -/
theorem c1_decode_encode_roundtrip (priv : Nat) (m : Message) :
    ∃ h, decodePacket (encodePacket priv (ptypeOf m) m)
      = DecodeResult.ok m (pubkeyID priv) h := by
  refine ⟨keccak256 (cryptoSign (keccak256 (ptypeOf m :: encBody m)) priv
    ++ (ptypeOf m :: encBody m)), ?_⟩
  have hklen := keccak256_length
  have hslen : (cryptoSign (keccak256 (ptypeOf m :: encBody m)) priv).length = 65 :=
    cryptoSign_length _ _
  set body : List Byte := ptypeOf m :: encBody m with hbody
  set sig : List Byte := cryptoSign (keccak256 body) priv with hsig
  have hblen : body.length = (encBody m).length + 1 := by rw [hbody]; simp
  have hguard : ¬ ((keccak256 (sig ++ body) ++ (sig ++ body)).length < headSize + 1) := by
    simp only [List.length_append, hklen, hslen, headSize, macSize, sigSize, hblen]
    omega
  have htake : (keccak256 (sig ++ body) ++ (sig ++ body)).take macSize
      = keccak256 (sig ++ body) := by
    conv_lhs => rw [show macSize = (keccak256 (sig ++ body)).length from (hklen _).symm]
    exact take_len_append _ _
  have hdrop : (keccak256 (sig ++ body) ++ (sig ++ body)).drop macSize = sig ++ body := by
    conv_lhs => rw [show macSize = (keccak256 (sig ++ body)).length from (hklen _).symm]
    exact drop_len_append _ _
  have hsigslice : (sig ++ body).take sigSize = sig := by
    conv_lhs => rw [show sigSize = sig.length from hslen.symm]
    exact take_len_append _ _
  have hsigdata : (keccak256 (sig ++ body) ++ (sig ++ body)).drop headSize = body := by
    rw [show keccak256 (sig ++ body) ++ (sig ++ body)
        = (keccak256 (sig ++ body) ++ sig) ++ body by simp]
    conv_lhs => rw [show headSize = (keccak256 (sig ++ body) ++ sig).length by
      simp [hklen, hslen, headSize, macSize, sigSize]]
    exact drop_len_append _ _
  show decodePacket (keccak256 (sig ++ body) ++ (sig ++ body))
      = DecodeResult.ok m (pubkeyID priv) (keccak256 (sig ++ body))
  rw [decodePacket, if_neg hguard]
  simp only [htake, hdrop, hsigslice, hsigdata]
  rw [if_neg (by simp)]
  rw [hsig, recoverNodeID_sign]
  rw [hbody]
  simp only [Option.some.injEq]
  rw [if_neg (ptypeOf_range m), decBody_encBody]

/-! ### Peer classification (`processRestInPingPong`) -/

/-- Node classification constants used by the routing table collaborator
(spec: Unknown / Compatible "Brother" / Incompatible "Alien"). -/
inductive NodeType where
  | UnknownNode
  | BrotherNode
  | AlienNode
deriving DecidableEq

/-- Match policy passed to `closest` (spec: Either / CompatibleOnly). -/
inductive MatchType where
  | EitherUncleAndBrother
  | BrotherOnly
deriving DecidableEq

/-- Go `strings.Split(s, "\t")` on a byte string: always returns at least
one (possibly empty) segment; 9 is the tab byte. -/
def splitTab : List Byte → List (List Byte)
  | [] => [[]]
  | b :: rest =>
    if b = 9 then [] :: splitTab rest
    else
      match splitTab rest with
      | [] => [[b]]
      | s :: tl => (b :: s) :: tl

/-- Digit-string accumulator used by `atoi`; fails on any non-digit byte. -/
def parseDigitsAux : List Byte → Nat → Option Nat
  | [], acc => some acc
  | c :: rest, acc =>
    if 48 ≤ c ∧ c ≤ 57 then parseDigitsAux rest (acc * 10 + (c - 48)) else none

/-- Go `strconv.Atoi`: optional sign, decimal digits, signed-64-bit range
check; `none` models a parse error. -/
def atoi (s : List Byte) : Option Int :=
  match s with
  | [] => none
  | 43 :: rest =>
    match rest with
    | [] => none
    | _ => (parseDigitsAux rest 0).bind fun n =>
        if n ≤ 2 ^ 63 - 1 then some (n : Int) else none
  | 45 :: rest =>
    match rest with
    | [] => none
    | _ => (parseDigitsAux rest 0).bind fun n =>
        if n ≤ 2 ^ 63 then some (-(n : Int)) else none
  | _ => (parseDigitsAux s 0).bind fun n =>
      if n ≤ 2 ^ 63 - 1 then some (n : Int) else none

/-- Go `uint64(i)` for a signed 64-bit value: two's-complement
reinterpretation, i.e. the representative of `i` modulo `2^64`. -/
def u64ofInt (i : Int) : Nat :=
  (i % (2 ^ 64 : Int)).toNat

/-- Network-id extraction from the `Rest` field exactly as in
`processRestInPingPong`: take the first raw value, drop its first byte
(the RLP string header), split on tab, `Atoi` the first segment, and keep
the default 0 on absence or parse failure. -/
def extractNetworkId (restVals : List (List Byte)) : Nat :=
  match restVals with
  | [] => 0
  | r0 :: _ =>
    match splitTab (r0.drop 1) with
    | [] => 0
    | s0 :: _ =>
      match atoi s0 with
      | none => 0
      | some i => u64ofInt i

/-- Pointwise update of the classification map, modelling the routing
table's `SetNodeType` (spec: `setClassification(nodeID, class)`). -/
def updateNodeType (tab : NodeID → NodeType) (id : NodeID) (t : NodeType) :
    NodeID → NodeType :=
  fun n => if n = id then t else tab n

/-- The `processRestInPingPong` function: returns the remote node type it
determined together with the updated classification map.  Equal network id
(including the default 0 when `Rest` is absent or unparsable) marks the
sender Brother; a different nonzero id marks it Alien; otherwise the map is
untouched and Unknown is returned. -/
def processRestInPingPong (restVals : List (List Byte)) (networkid : Nat)
    (fromID : NodeID) (tab : NodeID → NodeType) : NodeType × (NodeID → NodeType) :=
  let nid := extractNetworkId restVals
  if nid = networkid then
    (NodeType.BrotherNode, updateNodeType tab fromID NodeType.BrotherNode)
  else if nid ≠ 0 then
    (NodeType.AlienNode, updateNodeType tab fromID NodeType.AlienNode)
  else
    (NodeType.UnknownNode, tab)

/-! ### Handler state and helpers -/

/-- UDP sender address (`net.UDPAddr`), IP abstracted to a Nat. -/
structure UdpAddr where
  ip : Nat
  port : Nat
deriving DecidableEq

/-- The fields of a routing-table `Node` the handlers use. -/
structure Node where
  id : NodeID
  ip : Nat
  udp : Nat
  tcp : Nat
deriving DecidableEq

/-- The `makeEndpoint` function. -/
def makeEndpoint (addr : UdpAddr) (tcpPort : Nat) : RpcEndpoint :=
  ⟨addr.ip, addr.port, tcpPort⟩

/-- The `nodeToRPC` function. -/
def nodeToRPC (n : Node) : RpcNode :=
  ⟨n.ip, n.udp, n.tcp, n.id⟩

/-- The state of the `udp` object together with the collaborators the
handlers consult.  `nodeType` models the Table's classification map,
`db` models `u.db.node(id) != nil` (a bonded record exists), `kv` models
`GetKey` (the values stored under a key), `kvCapacity` the per-key
capacity bound of `SetKey`, `subnetBootNodeLimits` the external constant
`params.SubnetBootNodeLimits`, `closest` the Table's closest-node query
and `relayOK` `netutil.CheckRelayIP == nil`.  All of these collaborators
are Modelled from the spec: section 4.4 lists exactly these interfaces. -/
structure Udp where
  networkid : Nat
  strictNodeCheck : Bool
  ourEndpoint : RpcEndpoint
  nodeType : NodeID → NodeType
  db : NodeID → Bool
  kv : NodeID → List (List Byte)
  kvCapacity : Nat
  subnetBootNodeLimits : Nat
  bucketSize : Nat
  maxNeighbors : Nat
  closest : List Byte → Nat → MatchType → List Node
  relayOK : Nat → Nat → Bool

/-- Handler errors (`errExpired`, `errUnknownNode`, `errUnsolicitedReply`). -/
inductive HandlerErr where
  | expiredErr
  | unknownNodeErr
  | unsolicitedReplyErr
deriving DecidableEq

/-- Handler return value (`error` in Go, `nil` = ok). -/
inductive HandleRes where
  | ok
  | err (e : HandlerErr)
deriving DecidableEq

/-- Result of running one typed handler: updated state, packets passed to
`u.send` (destination id, type tag, message), and the returned error. -/
structure HandleResult where
  state : Udp
  sends : List (NodeID × Nat × Message)
  res : HandleRes

/-- Inputs the handlers receive from concurrent collaborators: the result
of `u.handleReply` (whether a pending entry matched this inbound reply) and
the permutation `rand.Shuffle` applies in `findvalue.handle`. -/
structure Oracle where
  replyMatched : Bool
  shuffle : List (List Byte) → List (List Byte)

/-- The timeout constant `expiration = 20 * time.Second`, in seconds. -/
def expirationWindow : Int := 20

/-- Go `int64(ts)` for a `uint64` timestamp: two's-complement
reinterpretation. -/
def int64OfUint64 (n : Nat) : Int :=
  if n % 2 ^ 64 < 2 ^ 63 then ((n % 2 ^ 64 : Nat) : Int)
  else ((n % 2 ^ 64 : Nat) : Int) - 2 ^ 64

/-- The `expired` helper: `time.Unix(int64(ts), 0).Before(time.Now())`,
i.e. the packet is expired iff its timestamp, reinterpreted as a signed
64-bit integer, is strictly before the current time (seconds). -/
def expired (ts : Nat) (now : Int) : Bool :=
  int64OfUint64 ts < now

/-- The `Rest` value a sender builds: `rlp.EncodeToBytes("%d\t" of the
network id)`, an RLP string header byte followed by ASCII digits and a
tab. -/
def mkNetworkRestVal (n : Nat) : List Byte :=
  (128 + ((Nat.toDigits 10 n).map Char.toNat ++ [9]).length)
    :: ((Nat.toDigits 10 n).map Char.toNat ++ [9])

/-! ### Typed handlers -/

/-- The `ping.handle` method.  After the expiration guard it always runs
`processRestInPingPong`; the Pong reply is sent unless strict node check is
on and the remote was not determined to be a Brother.  The `handleReply` /
bonding interaction inside the send branch is fire-and-forget concurrency
and does not affect state or sends modelled here. -/
def pingHandle (u : Udp) (now : Int) (fromAddr : UdpAddr) (fromID : NodeID)
    (mac : List Byte) (req : PingMsg) : HandleResult :=
  if expired req.expiration now then ⟨u, [], .err .expiredErr⟩
  else
    let pr := processRestInPingPong req.rest u.networkid fromID u.nodeType
    let u2 := { u with nodeType := pr.2 }
    if u.strictNodeCheck = true ∧ pr.1 ≠ NodeType.BrotherNode then
      ⟨u2, [], .ok⟩
    else
      ⟨u2, [(fromID, PONGPACKET, Message.pong
        ⟨makeEndpoint fromAddr req.fromEp.tcp, mac,
          u64ofInt (now + expirationWindow), [mkNetworkRestVal u.networkid]⟩)], .ok⟩

/-- The `pong.handle` method: expiration guard, classification, then
`errUnsolicitedReply` when no pending entry matched. -/
def pongHandle (u : Udp) (now : Int) (orc : Oracle) (fromID : NodeID)
    (req : PongMsg) : HandleResult :=
  if expired req.expiration now then ⟨u, [], .err .expiredErr⟩
  else
    let pr := processRestInPingPong req.rest u.networkid fromID u.nodeType
    let u2 := { u with nodeType := pr.2 }
    if orc.replyMatched then ⟨u2, [], .ok⟩
    else ⟨u2, [], .err .unsolicitedReplyErr⟩

/-- Strict-flag extraction from findnode's `Rest`: first raw value, header
byte dropped, `Atoi`, flag set when the parsed value is 1. -/
def parseStrictFlagInRest (restVals : List (List Byte)) : Bool :=
  match restVals with
  | [] => false
  | r0 :: _ =>
    match atoi (r0.drop 1) with
    | some i => i = 1
    | none => false

/-- The chunking loop of `findnode.handle`: nodes failing the relay-IP
check are skipped; a chunk is emitted when it reaches `maxNeighbors` or at
the last index (the final send is skipped when the last node itself fails
the relay check, exactly as in the source loop). -/
def chunkLoop (ok : Node → Bool) (maxN : Nat) :
    List Node → List RpcNode → List (List RpcNode)
  | [], _ => []
  | [n], acc => if ok n then [acc ++ [nodeToRPC n]] else []
  | n :: m :: rest, acc =>
    if ok n then
      if (acc ++ [nodeToRPC n]).length = maxN then
        (acc ++ [nodeToRPC n]) :: chunkLoop ok maxN (m :: rest) []
      else chunkLoop ok maxN (m :: rest) (acc ++ [nodeToRPC n])
    else chunkLoop ok maxN (m :: rest) acc

/-- The `findnode.handle` method: expiration guard, anti-amplification bond
check (`errUnknownNode`), match-policy extraction, closest-node query and
chunked Neighbors replies. -/
def findnodeHandle (u : Udp) (now : Int) (fromAddr : UdpAddr) (fromID : NodeID)
    (req : FindnodeMsg) : HandleResult :=
  if expired req.expiration now then ⟨u, [], .err .expiredErr⟩
  else if u.db fromID = false then ⟨u, [], .err .unknownNodeErr⟩
  else
    let matchType := if parseStrictFlagInRest req.rest then MatchType.BrotherOnly
      else MatchType.EitherUncleAndBrother
    let closestNodes := u.closest (keccak256 (encNat req.target)) u.bucketSize matchType
    let chunks := chunkLoop (fun n => u.relayOK fromAddr.ip n.ip) u.maxNeighbors
      closestNodes []
    ⟨u, chunks.map fun c => (fromID, NEIGHBORSPACKET,
        Message.neighbors ⟨c, u64ofInt (now + expirationWindow), []⟩), .ok⟩

/-- The `neighbors.handle` method: expiration guard, then
`errUnsolicitedReply` when no pending entry matched (node admission happens
in the requester's callback, outside this handler). -/
def neighborsHandle (u : Udp) (now : Int) (orc : Oracle) (req : NeighborsMsg) :
    HandleResult :=
  if expired req.expiration now then ⟨u, [], .err .expiredErr⟩
  else if orc.replyMatched then ⟨u, [], .ok⟩
  else ⟨u, [], .err .unsolicitedReplyErr⟩

/-- Modelled from the spec: the KV overlay's `setKey(key, value,
contributorID) -> bool`; the store is capacity-bounded per key and returns
false (storing nothing) when the bound is reached. -/
def SetKey (u : Udp) (key : NodeID) (value : List Byte) : Udp × Bool :=
  if (u.kv key).length < u.kvCapacity then
    ({ u with kv := fun k => if k = key then u.kv key ++ [value] else u.kv k }, true)
  else (u, false)

/-- Modelled from the spec: the address-record serialization
`fmt.Sprintf("enode://%s@%s", fromID, from)` - an enode URL built from the
sender's NodeID and UDP envelope address (not from any packet field). -/
def enodeValue (fromID : NodeID) (addr : UdpAddr) : List Byte :=
  101 :: 110 :: (encNat fromID ++ (encNat addr.ip ++ encNat addr.port))

/-- The `store.handle` method: expiration guard, bond check, then `SetKey`
of the enode record of the sender under the packet's key, replying with a
`storeReply` whose `result` field is the `SetKey` success flag. -/
def storeHandle (u : Udp) (now : Int) (fromAddr : UdpAddr) (fromID : NodeID)
    (req : StoreMsg) : HandleResult :=
  if expired req.expiration now then ⟨u, [], .err .expiredErr⟩
  else if u.db fromID = false then ⟨u, [], .err .unknownNodeErr⟩
  else
    let sk := SetKey u req.key (enodeValue fromID fromAddr)
    ⟨sk.1, [(fromID, STOREREPLYPACKET,
      Message.storeReply ⟨u64ofInt (now + expirationWindow), sk.2⟩)], .ok⟩

/-- The `storeReply.handle` method: expiration guard, then logging only. -/
def storeReplyHandle (u : Udp) (now : Int) (req : StoreReplyMsg) : HandleResult :=
  if expired req.expiration now then ⟨u, [], .err .expiredErr⟩
  else ⟨u, [], .ok⟩

/-- Comma-joining of the selected values (each value is followed by a comma
byte 44, as the source's string builder does). -/
def joinComma (vals : List (List Byte)) : List Byte :=
  (vals.map fun v => v ++ [44]).flatten

/-- The `findvalue.handle` method: expiration guard, `GetKey` lookup, then
a reply whose value is empty for no entries, all entries comma-joined when
within `SubnetBootNodeLimits`, and the comma-join of the first
`SubnetBootNodeLimits` entries of the shuffled list otherwise. -/
def findvalueHandle (u : Udp) (now : Int) (orc : Oracle) (fromID : NodeID)
    (req : FindvalueMsg) : HandleResult :=
  if expired req.expiration now then ⟨u, [], .err .expiredErr⟩
  else
    let value := u.kv req.key
    let replyValue :=
      if value.length = 0 then []
      else if value.length ≤ u.subnetBootNodeLimits then joinComma value
      else joinComma ((orc.shuffle value).take u.subnetBootNodeLimits)
    ⟨u, [(fromID, FINDVALUEREPLYPACKET, Message.findvalueReply
      ⟨encNat req.key, replyValue, u64ofInt (now + expirationWindow)⟩)], .ok⟩

/-- The `findvalueReply.handle` method: expiration guard, then
`errUnsolicitedReply` when no pending entry matched. -/
def findvalueReplyHandle (u : Udp) (now : Int) (orc : Oracle)
    (req : FindvalueReplyMsg) : HandleResult :=
  if expired req.expiration now then ⟨u, [], .err .expiredErr⟩
  else if orc.replyMatched then ⟨u, [], .ok⟩
  else ⟨u, [], .err .unsolicitedReplyErr⟩

/-- Dispatch to the typed handler (`packet.handle(u, from, fromID, hash)`). -/
def dispatchHandler (u : Udp) (now : Int) (orc : Oracle) (fromAddr : UdpAddr)
    (fromID : NodeID) (mac : List Byte) : Message → HandleResult
  | .ping p => pingHandle u now fromAddr fromID mac p
  | .pong p => pongHandle u now orc fromID p
  | .findnode p => findnodeHandle u now fromAddr fromID p
  | .neighbors p => neighborsHandle u now orc p
  | .store p => storeHandle u now fromAddr fromID p
  | .storeReply p => storeReplyHandle u now p
  | .findvalue p => findvalueHandle u now orc fromID p
  | .findvalueReply p => findvalueReplyHandle u now orc p

/-- The expiration timestamp each typed message carries. -/
def expirationOf : Message → Nat
  | .ping p => p.expiration
  | .pong p => p.expiration
  | .findnode p => p.expiration
  | .neighbors p => p.expiration
  | .store p => p.expiration
  | .storeReply p => p.expiration
  | .findvalue p => p.expiration
  | .findvalueReply p => p.expiration

/-- Outcome of `handlePacket`: rejected at dispatch as an alien sender,
a decode failure, or the typed handler's result. -/
inductive HandleOutcome where
  | alienRejected
  | decodeFailed (e : DecodeErr)
  | handled (res : HandleRes)
deriving DecidableEq

/-- Result of `handlePacket` on one inbound datagram. -/
structure PacketResult where
  state : Udp
  sends : List (NodeID × Nat × Message)
  outcome : HandleOutcome

/-- The `handlePacket` function: decode, then drop any packet whose sender
NodeID is classified Alien before the decode error check and before any
typed handler runs. -/
def handlePacket (u : Udp) (now : Int) (orc : Oracle) (fromAddr : UdpAddr)
    (buf : List Byte) : PacketResult :=
  let d := decodePacket buf
  if u.nodeType d.senderID = NodeType.AlienNode then ⟨u, [], .alienRejected⟩
  else
    match d with
    | .fail e _ => ⟨u, [], .decodeFailed e⟩
    | .ok m fromID hash =>
      let r := dispatchHandler u now orc fromAddr fromID hash m
      ⟨r.state, r.sends, .handled r.res⟩

/-! ### Pending-reply event loop -/

/-- The `pending` struct fields relevant to the loop (the callback and the
result channel are represented by the entry's identity; delivering an error
to the entry models sending on its `errc` channel).  Times are in
milliseconds. -/
structure Pending where
  fromID : NodeID
  ptype : Nat
  deadline : Int
  createAt : Int
deriving DecidableEq

/-- Errors the loop delivers on an entry's `errc` channel. -/
inductive LoopError where
  | timeoutErr
  | clockWarpErr
  | closedErr
deriving DecidableEq

/-- The constant `respTimeout = 500 * time.Millisecond`, in milliseconds. -/
def respTimeout : Int := 500

/-- The `addPending` constructor: the caller supplies only the peer id and
expected packet type; `deadline` and `createAt` are the Go zero value (the
loop assigns them on receipt). -/
def addPending (id : NodeID) (pt : Nat) : Pending :=
  ⟨id, pt, 0, 0⟩

/-- The `case p := <-u.pendings` branch of `udp.loop`: on receipt the loop
overwrites the entry's deadline with `now + respTimeout` and its creation
time with `now`, then appends it to the pending list. -/
def pendingArrival (now : Int) (plist : List Pending) (p : Pending) : List Pending :=
  plist ++ [{ p with deadline := now + respTimeout, createAt := now }]

/-- One pass of the `case now := <-timeout.C` branch: the loop walks the
list and, at the first entry whose deadline has elapsed
(`now.After(deadline) || now.Equal(deadline)`), sends `errTimeout` and
removes it - `container/list.Remove` nils the element's links, so
`el.Next()` then yields nil and the walk stops after one removal. -/
def timeoutScan (now : Int) : List Pending → List Pending × Option Pending
  | [] => ([], none)
  | p :: rest =>
    if p.deadline ≤ now then (rest, some p)
    else
      let r := timeoutScan now rest
      (p :: r.1, r.2)

/-- Repeated timer fires at time `now`: after each removal `resetTimeout`
re-arms the timer with the already-elapsed head deadline, so it fires again
immediately; the fuel (list length bounds the number of fires needed)
makes the drain total. -/
def fireTimeoutsFuel (now : Int) : Nat → List Pending → List Pending × List (Pending × LoopError)
  | 0, l => (l, [])
  | fuel + 1, l =>
    match timeoutScan now l with
    | (_, none) => (l, [])
    | (l2, some p) =>
      let r := fireTimeoutsFuel now fuel l2
      (r.1, (p, LoopError.timeoutErr) :: r.2)

/-- Draining all elapsed entries at time `now`: the pair of the surviving
list and the (entry, error) deliveries made. -/
def fireTimeouts (now : Int) (l : List Pending) : List Pending × List (Pending × LoopError) :=
  fireTimeoutsFuel now l.length l

/-- Whether an entry's deadline has elapsed at time `now`. -/
def elapsedAt (now : Int) (p : Pending) : Bool :=
  p.deadline ≤ now

theorem timeoutScan_none (now : Int) (l : List Pending)
    (h : (timeoutScan now l).2 = none) :
    (timeoutScan now l).1 = l ∧ l.filter (elapsedAt now) = [] := by
  induction l with
  | nil => simp [timeoutScan]
  | cons p rest ih =>
    by_cases hp : p.deadline ≤ now
    · simp [timeoutScan, hp] at h
    · simp only [timeoutScan, if_neg hp] at h ⊢
      have := ih h
      simp only [List.filter_cons, elapsedAt]
      simp [hp, this.1, this.2]

theorem timeoutScan_some (now : Int) (l : List Pending) (l2 : List Pending) (p : Pending)
    (h : timeoutScan now l = (l2, some p)) :
    elapsedAt now p = true
      ∧ l.filter (elapsedAt now) = p :: l2.filter (elapsedAt now)
      ∧ l.filter (fun q => !elapsedAt now q) = l2.filter (fun q => !elapsedAt now q)
      ∧ l2.length + 1 = l.length := by
  induction l generalizing l2 with
  | nil => simp [timeoutScan] at h
  | cons q rest ih =>
    by_cases hq : q.deadline ≤ now
    · simp only [timeoutScan, if_pos hq, Prod.mk.injEq, Option.some.injEq] at h
      obtain ⟨h1, h2⟩ := h
      subst h1; subst h2
      refine ⟨by simp [elapsedAt, hq], ?_, ?_, by simp⟩
      · simp only [List.filter_cons, elapsedAt]
        simp [hq]
      · simp only [List.filter_cons, elapsedAt]
        simp [hq]
    · simp only [timeoutScan, if_neg hq, Prod.mk.injEq] at h
      obtain ⟨h1, h2⟩ := h
      match hscan : timeoutScan now rest with
      | (r1, ropt) =>
        rw [hscan] at h1 h2
        simp only at h1 h2
        subst h1
        cases ropt with
        | none => simp at h2
        | some p0 =>
          simp only [Option.some.injEq] at h2
          subst h2
          obtain ⟨e1, e2, e3, e4⟩ := ih r1 hscan
          refine ⟨e1, ?_, ?_, by simp [← e4]⟩
          · simp only [List.filter_cons, elapsedAt]
            simp only [hq, decide_False]
            simpa [elapsedAt] using e2
          · simp only [List.filter_cons, elapsedAt]
            simp only [hq, decide_False, Bool.not_false]
            simpa [elapsedAt] using e3

theorem filter_all_not (now : Int) (l : List Pending)
    (h : l.filter (elapsedAt now) = []) :
    l.filter (fun q => !elapsedAt now q) = l := by
  induction l with
  | nil => simp
  | cons q rest ih =>
    simp only [List.filter_cons] at h ⊢
    by_cases hq : elapsedAt now q = true
    · rw [hq] at h; simp at h
    · rw [Bool.not_eq_true] at hq
      rw [hq] at h ⊢
      simp only [Bool.not_false, if_pos rfl]
      simp [ih h]

theorem fireTimeoutsFuel_char (now : Int) (fuel : Nat) (l : List Pending)
    (h : (l.filter (elapsedAt now)).length ≤ fuel) :
    fireTimeoutsFuel now fuel l
      = (l.filter (fun q => !elapsedAt now q),
         (l.filter (elapsedAt now)).map fun p => (p, LoopError.timeoutErr)) := by
  induction fuel generalizing l with
  | zero =>
    simp only [Nat.le_zero, List.length_eq_zero] at h
    simp [fireTimeoutsFuel, h, filter_all_not now l h]
  | succ k ih =>
    match hscan : timeoutScan now l with
    | (l2, none) =>
      have := timeoutScan_none now l (by rw [hscan])
      rw [hscan] at this
      simp only [fireTimeoutsFuel, hscan]
      simp [this.2, filter_all_not now l this.2]
    | (l2, some p) =>
      obtain ⟨e1, e2, e3, _⟩ := timeoutScan_some now l l2 p hscan
      simp only [fireTimeoutsFuel, hscan]
      have hlen : (l2.filter (elapsedAt now)).length ≤ k := by
        have : (l.filter (elapsedAt now)).length = (l2.filter (elapsedAt now)).length + 1 := by
          rw [e2]; simp
        omega
      rw [ih l2 hlen]
      simp [e2, e3]

theorem fireTimeouts_char (now : Int) (l : List Pending) :
    fireTimeouts now l
      = (l.filter (fun q => !elapsedAt now q),
         (l.filter (elapsedAt now)).map fun p => (p, LoopError.timeoutErr)) :=
  fireTimeoutsFuel_char now l.length l (List.length_filter_le _ _)

/-! ### Helper lemmas and system-trace model -/

theorem processRest_other (restVals : List (List Byte)) (networkid : Nat)
    (fromID : NodeID) (tab : NodeID → NodeType) (a : NodeID) (ha : a ≠ fromID) :
    (processRestInPingPong restVals networkid fromID tab).2 a = tab a := by
  simp only [processRestInPingPong]
  split
  · simp [updateNodeType, ha]
  · split
    · simp [updateNodeType, ha]
    · rfl

theorem dispatch_alien_sticky (u : Udp) (now : Int) (orc : Oracle) (addr : UdpAddr)
    (fromID : NodeID) (mac : List Byte) (m : Message) (a : NodeID) (ha : a ≠ fromID)
    (h : u.nodeType a = NodeType.AlienNode) :
    (dispatchHandler u now orc addr fromID mac m).state.nodeType a = NodeType.AlienNode := by
  have hpr : ∀ restVals,
      (processRestInPingPong restVals u.networkid fromID u.nodeType).2 a
        = NodeType.AlienNode := fun restVals => by
    rw [processRest_other _ _ _ _ _ ha]; exact h
  cases m with
  | ping p =>
    simp only [dispatchHandler, pingHandle]
    split
    · exact h
    · split
      · exact hpr p.rest
      · exact hpr p.rest
  | pong p =>
    simp only [dispatchHandler, pongHandle]
    split
    · exact h
    · split
      · exact hpr p.rest
      · exact hpr p.rest
  | findnode p =>
    simp only [dispatchHandler, findnodeHandle]
    split
    · exact h
    · split
      · exact h
      · exact h
  | neighbors p =>
    simp only [dispatchHandler, neighborsHandle]
    split
    · exact h
    · split
      · exact h
      · exact h
  | store p =>
    simp only [dispatchHandler, storeHandle, SetKey]
    split
    · exact h
    · split
      · exact h
      · split
        · exact h
        · exact h
  | storeReply p =>
    simp only [dispatchHandler, storeReplyHandle]
    split
    · exact h
    · exact h
  | findvalue p =>
    simp only [dispatchHandler, findvalueHandle]
    split
    · exact h
    · exact h
  | findvalueReply p =>
    simp only [dispatchHandler, findvalueReplyHandle]
    split
    · exact h
    · split
      · exact h
      · exact h

theorem handlePacket_alien_sticky (u : Udp) (now : Int) (orc : Oracle)
    (addr : UdpAddr) (buf : List Byte) (a : NodeID)
    (h : u.nodeType a = NodeType.AlienNode) :
    (handlePacket u now orc addr buf).state.nodeType a = NodeType.AlienNode := by
  simp only [handlePacket]
  split
  · exact h
  · next hno =>
    match hd : decodePacket buf with
    | .fail e f => exact h
    | .ok m fromID hash =>
      rw [hd] at hno
      have ha : a ≠ fromID := by
        intro heq
        apply hno
        rw [← heq]
        simpa [DecodeResult.senderID] using h
      exact dispatch_alien_sticky u now orc addr fromID hash m a ha h

/-- One inbound datagram event: its arrival time, the concurrent-oracle
inputs, the sender address and the raw bytes. -/
structure InEvent where
  now : Int
  orc : Oracle
  addr : UdpAddr
  buf : List Byte

/-- Processing a sequence of inbound datagrams through `handlePacket`,
threading the classification and KV state. -/
def runInbound (u : Udp) (evs : List InEvent) : Udp :=
  evs.foldl (fun s e => (handlePacket s e.now e.orc e.addr e.buf).state) u

theorem runInbound_alien_sticky (evs : List InEvent) (u : Udp) (a : NodeID)
    (h : u.nodeType a = NodeType.AlienNode) :
    (runInbound u evs).nodeType a = NodeType.AlienNode := by
  induction evs generalizing u with
  | nil => exact h
  | cons e tl ih =>
    exact ih _ (handlePacket_alien_sticky u e.now e.orc e.addr e.buf a h)

/-- Whether a Pong packet occurs among a handler's sends. -/
def sendsContainPong (sends : List (NodeID × Nat × Message)) : Prop :=
  ∃ s ∈ sends, s.2.1 = PONGPACKET

instance (sends : List (NodeID × Nat × Message)) : Decidable (sendsContainPong sends) := by
  unfold sendsContainPong
  infer_instance

/-- The value carried by the single findvalueReply a `findvalue.handle`
invocation sends (`none` when the sends are not of that unique shape). -/
def replyValueOf (r : HandleResult) : Option (List Byte) :=
  match r.sends with
  | [(_, _, Message.findvalueReply fr)] => some fr.value
  | _ => none

/-! ### Concrete fixtures used by witnesses and counterexamples -/

/-- Benign oracle: replies match, the shuffle is the identity permutation. -/
def fixOrc : Oracle := ⟨true, fun l => l⟩

/-- A concrete sender address. -/
def fixAddr : UdpAddr := ⟨0, 0⟩

/-- A baseline `udp` state with empty collaborators. -/
def fixU : Udp :=
  { networkid := 7, strictNodeCheck := false, ourEndpoint := ⟨0, 0, 0⟩,
    nodeType := fun _ => NodeType.UnknownNode, db := fun _ => false,
    kv := fun _ => [], kvCapacity := 0, subnetBootNodeLimits := 0,
    bucketSize := 0, maxNeighbors := 0, closest := fun _ _ _ => [],
    relayOK := fun _ _ => true }

/-- A state in which NodeID 3 is classified Alien. -/
def fixAlienU : Udp :=
  { fixU with nodeType := fun n => if n = 3 then NodeType.AlienNode
      else NodeType.UnknownNode }

/-- A state with a bonded record for every sender and KV capacity 5. -/
def fixBondU : Udp := { fixU with db := fun _ => true, kvCapacity := 5 }

/-- A state holding three values under key 7 with a sampling cap of 2. -/
def fixKV3 : Udp :=
  { fixU with
    kv := fun k => if k = 7 then [[1], [2], [3]] else []
    subnetBootNodeLimits := 2 }

/-- The baseline state with strict node check enabled. -/
def fixStrictU : Udp := { fixU with strictNodeCheck := true }

/-- A minimal ping message. -/
def fixPing0 : PingMsg := ⟨4, ⟨0, 0, 0⟩, ⟨0, 0, 0⟩, 0, []⟩

/-- An encoded ping packet signed by private key 3. -/
def c3buf : List Byte := encodePacket 3 PINGPACKET (Message.ping fixPing0)

/-- A non-expired ping carrying network id 9 in its `Rest` field. -/
def fixPingRest9 : PingMsg := ⟨4, ⟨0, 0, 0⟩, ⟨0, 0, 0⟩, 5, [mkNetworkRestVal 9]⟩

/-- A non-expired store request for key 2 carrying the empty value. -/
def c7req : StoreMsg := ⟨2, ⟨0, 0, 0⟩, 5, []⟩

/-- The address the store request of `c7req` arrives from. -/
def c7addr : UdpAddr := ⟨1, 7⟩

/-! ### Claim theorems -/

/-- C2 (counterexample): with local network identifier 0, an inbound
Ping/Pong with an absent `Rest` field does not leave the sender Unknown -
the default parsed identifier 0 equals the local identifier, so
`processRestInPingPong` classifies the sender Compatible (BrotherNode). -/
theorem c2_classification_counterexample :
    ((processRestInPingPong [] 0 5 (fun _ => NodeType.UnknownNode)).2 5
        = NodeType.BrotherNode)
    ∧ ((fun _ => NodeType.UnknownNode : NodeID → NodeType) 5
        = NodeType.UnknownNode) := by
  exact ⟨by decide, rfl⟩

/-- C2 (amended): for inbound Ping/Pong processed by
`processRestInPingPong`: if `Rest` is absent and the local network
identifier is nonzero, the classification map is unchanged (in particular
an Unknown sender stays Unknown); if the carried identifier equals the
local one the sender is classified Compatible; if it is a different
nonzero identifier the sender is classified Incompatible; and a sender
already classified Incompatible keeps that classification across any
sequence of inbound packets processed by `handlePacket` for the life of
the process. -/
theorem c2_classification_amended (restVals : List (List Byte)) (networkid : Nat)
    (fromID : NodeID) (tab : NodeID → NodeType) :
    (restVals = [] → networkid ≠ 0 →
      (processRestInPingPong restVals networkid fromID tab).2 = tab)
    ∧ (extractNetworkId restVals = networkid →
      (processRestInPingPong restVals networkid fromID tab).2 fromID
        = NodeType.BrotherNode)
    ∧ (extractNetworkId restVals ≠ networkid → extractNetworkId restVals ≠ 0 →
      (processRestInPingPong restVals networkid fromID tab).2 fromID
        = NodeType.AlienNode)
    ∧ (∀ (u : Udp) (evs : List InEvent) (a : NodeID),
        u.nodeType a = NodeType.AlienNode →
        (runInbound u evs).nodeType a = NodeType.AlienNode) := by
  refine ⟨?_, ?_, ?_, fun u evs a h => runInbound_alien_sticky evs u a h⟩
  · rintro rfl hnz
    simp [processRestInPingPong, extractNetworkId, Ne.symm hnz]
  · intro he
    simp [processRestInPingPong, he, updateNodeType]
  · intro hne hnz
    simp [processRestInPingPong, hne, hnz, updateNodeType]

theorem c2_classification_amended_witness :
    ((processRestInPingPong [] 7 3 (fun _ => NodeType.UnknownNode)).2
        = (fun _ => NodeType.UnknownNode))
    ∧ ((processRestInPingPong [mkNetworkRestVal 7] 7 3
        (fun _ => NodeType.UnknownNode)).2 3 = NodeType.BrotherNode)
    ∧ ((processRestInPingPong [mkNetworkRestVal 9] 7 3
        (fun _ => NodeType.UnknownNode)).2 3 = NodeType.AlienNode)
    ∧ ((runInbound fixAlienU [⟨0, fixOrc, fixAddr, []⟩]).nodeType 3
        = NodeType.AlienNode) :=
  ⟨(c2_classification_amended [] 7 3 (fun _ => NodeType.UnknownNode)).1 rfl (by decide),
   (c2_classification_amended [mkNetworkRestVal 7] 7 3
     (fun _ => NodeType.UnknownNode)).2.1 (by decide),
   (c2_classification_amended [mkNetworkRestVal 9] 7 3
     (fun _ => NodeType.UnknownNode)).2.2.1 (by decide) (by decide),
   (c2_classification_amended [] 7 3 (fun _ => NodeType.UnknownNode)).2.2.2 fixAlienU
     [⟨0, fixOrc, fixAddr, []⟩] 3 (by decide)⟩

/-- C3: an inbound packet whose recovered sender NodeID is already
classified Incompatible (AlienNode) is rejected by `handlePacket` at
dispatch: the state is unchanged, nothing is sent, and no typed handler is
invoked (the outcome is `alienRejected`, not `handled`). -/
theorem c3_alien_rejected_at_dispatch (u : Udp) (now : Int) (orc : Oracle)
    (addr : UdpAddr) (buf : List Byte)
    (h : u.nodeType (decodePacket buf).senderID = NodeType.AlienNode) :
    handlePacket u now orc addr buf = ⟨u, [], HandleOutcome.alienRejected⟩ := by
  simp [handlePacket, h]

theorem c3_alien_rejected_at_dispatch_witness :
    (fixAlienU.nodeType (decodePacket c3buf).senderID = NodeType.AlienNode)
    ∧ handlePacket fixAlienU 0 fixOrc fixAddr c3buf
        = ⟨fixAlienU, [], HandleOutcome.alienRejected⟩ :=
  ⟨by decide, c3_alien_rejected_at_dispatch fixAlienU 0 fixOrc fixAddr c3buf (by decide)⟩

/-- C4: for a non-expired inbound Ping, the classification side effect of
processing the `Rest` field always happens and does not depend on the
strict-mode flag; the strict flag only controls the Pong reply, which is
withheld exactly when strict mode is on and the sender was not determined
Compatible. -/
theorem c4_strict_gates_only_pong (u : Udp) (now : Int) (addr : UdpAddr)
    (fromID : NodeID) (mac : List Byte) (req : PingMsg)
    (hne : expired req.expiration now = false) :
    ((pingHandle u now addr fromID mac req).state.nodeType
        = (processRestInPingPong req.rest u.networkid fromID u.nodeType).2)
    ∧ (sendsContainPong (pingHandle u now addr fromID mac req).sends
        ↔ ¬(u.strictNodeCheck = true
            ∧ (processRestInPingPong req.rest u.networkid fromID u.nodeType).1
                ≠ NodeType.BrotherNode))
    ∧ (∀ b : Bool,
        (pingHandle { u with strictNodeCheck := b } now addr fromID mac req).state.nodeType
          = (pingHandle u now addr fromID mac req).state.nodeType) := by
  refine ⟨?_, ?_, ?_⟩
  · simp only [pingHandle, hne, Bool.false_eq_true, if_false]
    split <;> rfl
  · simp only [pingHandle, hne, Bool.false_eq_true, if_false]
    split
    · next hc => simp [sendsContainPong, hc]
    · next hc => simp [sendsContainPong, PONGPACKET, hc]
  · intro b
    simp only [pingHandle, hne, Bool.false_eq_true, if_false]
    split <;> split <;> rfl

theorem c4_strict_gates_only_pong_witness :
    (expired fixPingRest9.expiration 0 = false)
    ∧ ((pingHandle fixStrictU 0 fixAddr 3 [] fixPingRest9).state.nodeType
        = (processRestInPingPong fixPingRest9.rest fixStrictU.networkid 3
            fixStrictU.nodeType).2)
    ∧ (sendsContainPong (pingHandle fixStrictU 0 fixAddr 3 [] fixPingRest9).sends
        ↔ ¬(fixStrictU.strictNodeCheck = true
            ∧ (processRestInPingPong fixPingRest9.rest fixStrictU.networkid 3
                fixStrictU.nodeType).1 ≠ NodeType.BrotherNode))
    ∧ (∀ b : Bool,
        (pingHandle { fixStrictU with strictNodeCheck := b } 0 fixAddr 3 []
            fixPingRest9).state.nodeType
          = (pingHandle fixStrictU 0 fixAddr 3 [] fixPingRest9).state.nodeType) :=
  ⟨by decide,
   (c4_strict_gates_only_pong fixStrictU 0 fixAddr 3 [] fixPingRest9 (by decide)).1,
   (c4_strict_gates_only_pong fixStrictU 0 fixAddr 3 [] fixPingRest9 (by decide)).2.1,
   (c4_strict_gates_only_pong fixStrictU 0 fixAddr 3 [] fixPingRest9 (by decide)).2.2⟩

/-- C5: a non-expired FindNode from a sender with no bonded node record
fails with `errUnknownNode`, the state is unchanged and no Neighbors packet
is sent. -/
theorem c5_findnode_unknown_node (u : Udp) (now : Int) (addr : UdpAddr)
    (fromID : NodeID) (req : FindnodeMsg)
    (hne : expired req.expiration now = false) (hdb : u.db fromID = false) :
    findnodeHandle u now addr fromID req
      = ⟨u, [], HandleRes.err HandlerErr.unknownNodeErr⟩ := by
  simp [findnodeHandle, hne, hdb]

theorem c5_findnode_unknown_node_witness :
    (expired (5 : Nat) 0 = false) ∧ (fixU.db 3 = false)
    ∧ findnodeHandle fixU 0 fixAddr 3 ⟨0, 5, []⟩
        = ⟨fixU, [], HandleRes.err HandlerErr.unknownNodeErr⟩ :=
  ⟨by decide, by decide,
   c5_findnode_unknown_node fixU 0 fixAddr 3 ⟨0, 5, []⟩ (by decide) (by decide)⟩

/-- C6 (counterexample): at a current time exactly equal to the packet's
Expiration timestamp the handler does not fail with Expired - `expired`
uses `Before`, a strict comparison - refuting "fails exactly when now is
greater than or equal to the expiration". -/
theorem c6_expiration_counterexample :
    (expired 5 (5 : Int) = false)
    ∧ ((dispatchHandler fixU 5 fixOrc fixAddr 0 []
        (Message.storeReply ⟨5, false⟩)).res = HandleRes.ok) := by
  exact ⟨by decide, by decide⟩

/-- C6 (amended): every typed handler fails with Expired exactly when the
current time is strictly greater than the packet's Expiration timestamp
reinterpreted as a signed 64-bit integer, and when it does so it performs
no other action: the state is unchanged and nothing is sent. -/
theorem c6_expiration_guard_amended (u : Udp) (now : Int) (orc : Oracle)
    (addr : UdpAddr) (fromID : NodeID) (mac : List Byte) (m : Message) :
    ((dispatchHandler u now orc addr fromID mac m).res
        = HandleRes.err HandlerErr.expiredErr
      ↔ expired (expirationOf m) now = true)
    ∧ (expired (expirationOf m) now = true →
        dispatchHandler u now orc addr fromID mac m
          = ⟨u, [], HandleRes.err HandlerErr.expiredErr⟩)
    ∧ (expired (expirationOf m) now = true ↔ int64OfUint64 (expirationOf m) < now) := by
  refine ⟨?_, ?_, by simp [expired]⟩
  · by_cases he : expired (expirationOf m) now = true
    · cases m <;> simp_all [dispatchHandler, pingHandle, pongHandle, findnodeHandle,
        neighborsHandle, storeHandle, storeReplyHandle, findvalueHandle,
        findvalueReplyHandle, expirationOf]
    · cases m <;>
        simp_all [dispatchHandler, pingHandle, pongHandle, findnodeHandle,
          neighborsHandle, storeHandle, storeReplyHandle, findvalueHandle,
          findvalueReplyHandle, expirationOf] <;>
        (try split) <;> simp_all
  · intro he
    cases m <;> simp_all [dispatchHandler, pingHandle, pongHandle, findnodeHandle,
      neighborsHandle, storeHandle, storeReplyHandle, findvalueHandle,
      findvalueReplyHandle, expirationOf]

theorem c6_expiration_guard_amended_witness :
    (expired 5 (6 : Int) = true)
    ∧ dispatchHandler fixU 6 fixOrc fixAddr 0 [] (Message.storeReply ⟨5, false⟩)
        = ⟨fixU, [], HandleRes.err HandlerErr.expiredErr⟩ :=
  ⟨by decide,
   (c6_expiration_guard_amended fixU 6 fixOrc fixAddr 0 []
     (Message.storeReply ⟨5, false⟩)).2.1 (by decide)⟩

/-- C7 (counterexample): a non-expired Store from a bonded sender succeeds
but does not store the value carried in the packet: the packet's Value is
empty, yet the list stored under the packet's key is the enode address
record derived from the sender, and the packet's value is not in it. -/
theorem c7_store_counterexample :
    ((storeHandle fixBondU 0 c7addr 3 c7req).res = HandleRes.ok)
    ∧ ((storeHandle fixBondU 0 c7addr 3 c7req).state.kv 2 = [enodeValue 3 c7addr])
    ∧ (c7req.value ∉ (storeHandle fixBondU 0 c7addr 3 c7req).state.kv 2) := by
  refine ⟨by decide, by decide, by decide⟩

/-- C7 (amended): a non-expired Store from a bonded sender stores, under
the packet's key, the enode address record derived from the sender's
NodeID and UDP address (not the packet's Value field), with `SetKey`
failing exactly when the per-key capacity bound is already reached, and
sends back a StoreReply carrying the success flag of that store
operation. -/
theorem c7_store_amended (u : Udp) (now : Int) (addr : UdpAddr)
    (fromID : NodeID) (req : StoreMsg)
    (hne : expired req.expiration now = false) (hdb : u.db fromID = true) :
    (storeHandle u now addr fromID req
        = ⟨(SetKey u req.key (enodeValue fromID addr)).1,
           [(fromID, STOREREPLYPACKET, Message.storeReply
             ⟨u64ofInt (now + expirationWindow),
              (SetKey u req.key (enodeValue fromID addr)).2⟩)],
           HandleRes.ok⟩)
    ∧ ((SetKey u req.key (enodeValue fromID addr)).2 = false
        ↔ u.kvCapacity ≤ (u.kv req.key).length) := by
  constructor
  · simp [storeHandle, hne, hdb]
  · by_cases hc : (u.kv req.key).length < u.kvCapacity <;> simp [SetKey, hc]
    all_goals omega

theorem c7_store_amended_witness :
    (expired c7req.expiration 0 = false) ∧ (fixBondU.db 3 = true)
    ∧ (storeHandle fixBondU 0 c7addr 3 c7req
        = ⟨(SetKey fixBondU c7req.key (enodeValue 3 c7addr)).1,
           [(3, STOREREPLYPACKET, Message.storeReply
             ⟨u64ofInt (0 + expirationWindow),
              (SetKey fixBondU c7req.key (enodeValue 3 c7addr)).2⟩)],
           HandleRes.ok⟩)
    ∧ ((SetKey fixBondU c7req.key (enodeValue 3 c7addr)).2 = false
        ↔ fixBondU.kvCapacity ≤ (fixBondU.kv c7req.key).length) :=
  ⟨by decide, by decide,
   (c7_store_amended fixBondU 0 c7addr 3 c7req (by decide) (by decide)).1,
   (c7_store_amended fixBondU 0 c7addr 3 c7req (by decide) (by decide)).2⟩

/-- C8: when the loop's timer fires at time `now`, draining the pending
list delivers `errTimeout` to exactly the entries whose deadline has
elapsed and removes them, keeping the others: every elapsed entry receives
the Timeout error and is gone from the remaining pending list. -/
theorem c8_timeout_eviction (now : Int) (l : List Pending) :
    ((fireTimeouts now l).1 = l.filter fun q => !elapsedAt now q)
    ∧ ((fireTimeouts now l).2
        = (l.filter (elapsedAt now)).map fun p => (p, LoopError.timeoutErr))
    ∧ (∀ p ∈ l, elapsedAt now p = true →
        (p, LoopError.timeoutErr) ∈ (fireTimeouts now l).2
          ∧ p ∉ (fireTimeouts now l).1) := by
  have h := fireTimeouts_char now l
  refine ⟨by rw [h], by rw [h], ?_⟩
  intro p hp he
  constructor
  · rw [h]
    simp only [List.mem_map]
    exact ⟨p, by simp [List.mem_filter, hp, he], rfl⟩
  · rw [h]
    simp [List.mem_filter, he]

theorem c8_timeout_eviction_witness :
    ((⟨1, 2, 500, 0⟩, LoopError.timeoutErr)
        ∈ (fireTimeouts 600 [⟨1, 2, 500, 0⟩]).2)
    ∧ ((⟨1, 2, 500, 0⟩ : Pending) ∉ (fireTimeouts 600 [⟨1, 2, 500, 0⟩]).1) :=
  (c8_timeout_eviction 600 [⟨1, 2, 500, 0⟩]).2.2 ⟨1, 2, 500, 0⟩ (by decide) (by decide)

/-- C9: a non-expired FindValue is answered with an empty value when the
key has no stored values, with all values (comma-joined) when their count
is within the configured cap, and with exactly a cap-sized selection of
stored values - never more - when the count exceeds the cap (the shuffle
the handler applies is an arbitrary permutation of the stored list). -/
theorem c9_findvalue_cap (u : Udp) (now : Int) (orc : Oracle) (fromID : NodeID)
    (req : FindvalueMsg)
    (hne : expired req.expiration now = false)
    (hperm : List.Perm (orc.shuffle (u.kv req.key)) (u.kv req.key)) :
    ((u.kv req.key).length = 0 →
      replyValueOf (findvalueHandle u now orc fromID req) = some [])
    ∧ (0 < (u.kv req.key).length → (u.kv req.key).length ≤ u.subnetBootNodeLimits →
      replyValueOf (findvalueHandle u now orc fromID req)
        = some (joinComma (u.kv req.key)))
    ∧ (u.subnetBootNodeLimits < (u.kv req.key).length →
      ∃ sel : List (List Byte),
        replyValueOf (findvalueHandle u now orc fromID req) = some (joinComma sel)
        ∧ sel.length = u.subnetBootNodeLimits
        ∧ ∀ v ∈ sel, v ∈ u.kv req.key) := by
  refine ⟨?_, ?_, ?_⟩
  · intro h0
    simp [findvalueHandle, hne, replyValueOf, h0]
  · intro h1 h2
    simp [findvalueHandle, hne, replyValueOf, Nat.pos_iff_ne_zero.mp h1, h2]
  · intro h3
    refine ⟨(orc.shuffle (u.kv req.key)).take u.subnetBootNodeLimits, ?_, ?_, ?_⟩
    · have hz : ¬ (u.kv req.key).length = 0 := by omega
      have hc : ¬ (u.kv req.key).length ≤ u.subnetBootNodeLimits := by omega
      simp [findvalueHandle, hne, replyValueOf, hz, hc]
    · rw [List.length_take, hperm.length_eq]
      omega
    · intro v hv
      exact hperm.subset (List.mem_of_mem_take hv)

theorem c9_findvalue_cap_witness :
    (expired (5 : Nat) 0 = false)
    ∧ List.Perm (fixOrc.shuffle (fixKV3.kv 7)) (fixKV3.kv 7)
    ∧ ∃ sel : List (List Byte),
        replyValueOf (findvalueHandle fixKV3 0 fixOrc 3 ⟨7, 5⟩) = some (joinComma sel)
        ∧ sel.length = fixKV3.subnetBootNodeLimits
        ∧ ∀ v ∈ sel, v ∈ fixKV3.kv 7 :=
  ⟨by decide, List.Perm.refl _,
   (c9_findvalue_cap fixKV3 0 fixOrc 3 ⟨7, 5⟩ (by decide)
     (List.Perm.refl _)).2.2 (by decide)⟩

/-- C10: the event loop assigns a pending entry's deadline and creation
time at the moment it receives the entry - deadline = arrival time plus
the fixed `respTimeout` of 500 milliseconds - and a caller submitting an
entry via `addPending` cannot influence the deadline: whatever deadline or
creation time the submitted record carries is overwritten. -/
theorem c10_loop_assigns_deadline (now : Int) (plist : List Pending) (p : Pending) :
    (pendingArrival now plist p
        = plist ++ [⟨p.fromID, p.ptype, now + respTimeout, now⟩])
    ∧ respTimeout = 500
    ∧ (∀ d c : Int, pendingArrival now plist ⟨p.fromID, p.ptype, d, c⟩
        = pendingArrival now plist p)
    ∧ (pendingArrival now plist (addPending p.fromID p.ptype)
        = pendingArrival now plist p) := by
  refine ⟨by simp [pendingArrival], rfl, fun d c => by simp [pendingArrival],
    by simp [pendingArrival, addPending]⟩
